import Mathlib

/-!
Verification development for the `timed_message` AstrBot plugin
(`src/main.py`): a per-entry daily message scheduler.  The Python source
is shallowly embedded below: Python `datetime.time` values become
`PyTime`, naive `datetime` values become `PyDateTime` (a day number plus
a time of day), the plugin object state (`scheduled_messages`, `tasks`,
the JSON config file on disk) becomes `PluginState`, and each command
handler becomes a pure state-transforming function.  `asyncio` tasks are
modelled by a fresh-token discipline: the `tasks` dict maps entry ids to
tokens, and `alive` records every created-and-not-yet-cancelled task.
-/

/-- A Python `datetime.time` value: hour, minute, second, microsecond.
Mirrors the objects produced by `time.fromisoformat` and `datetime.time()`. -/
structure PyTime where
  hour : Nat
  minute : Nat
  second : Nat
  microsecond : Nat
deriving DecidableEq, Repr

/-- Total microseconds since midnight; Python compares `time` objects by
their field values, which for in-range fields coincides with this count. -/
def PyTime.toMicros (t : PyTime) : Nat :=
  ((t.hour * 60 + t.minute) * 60 + t.second) * 1000000 + t.microsecond

/-- A naive Python `datetime`: an ordinal day number (the `date` part) and
a time of day.  `datetime + timedelta(days=1)` increments `day` by one. -/
structure PyDateTime where
  day : Nat
  tod : PyTime
deriving DecidableEq, Repr

/-- `src/main.py` lines 70-72: `next_run = datetime.combine(now.date(), target_time)`;
`if current_time >= target_time: next_run = datetime.combine((now + timedelta(days=1)).date(), target_time)`. -/
def compute_next_run (now : PyDateTime) (target : PyTime) : PyDateTime :=
  if target.toMicros ≤ now.tod.toMicros then
    { day := now.day + 1, tod := target }
  else
    { day := now.day, tod := target }

/-- Numeric value of a decimal digit character. -/
def digitVal (c : Char) : Nat := c.toNat - '0'.toNat

/-- Parse exactly two decimal digits from the front of a character list. -/
def parse2 : List Char → Option (Nat × List Char)
  | a :: b :: rest =>
    if a.isDigit && b.isDigit then some (10 * digitVal a + digitVal b, rest)
    else none
  | _ => none

/-- Value of a list of decimal digit characters read left to right. -/
def digitsVal (cs : List Char) : Nat :=
  cs.foldl (fun acc c => 10 * acc + digitVal c) 0

/-- The optional timezone-offset tail of an isoformat time string,
`[±HH:MM[:SS[.ffffff]]]`: `some hasOffset` when the remaining input is
empty or a well-formed offset, `none` when it is malformed. -/
def parse_offset : List Char → Option Bool
  | [] => some false
  | c :: rest =>
    if c == '+' || c == '-' then
      match parse2 rest with
      | none => none
      | some (ohh, r1) =>
        if 24 ≤ ohh then none else
        match r1 with
        | ':' :: r2 =>
          match parse2 r2 with
          | none => none
          | some (omm, r3) =>
            if 60 ≤ omm then none else
            match r3 with
            | [] => some true
            | ':' :: r4 =>
              match parse2 r4 with
              | none => none
              | some (oss, r5) =>
                if 60 ≤ oss then none else
                match r5 with
                | [] => some true
                | '.' :: frac =>
                  if frac.length = 6 && frac.all Char.isDigit then some true
                  else none
                | _ => none
            | _ => none
        | _ => none
    else none

/-- Model of Python `datetime.time.fromisoformat` (as called at
`src/main.py` lines 66 and 120) on its documented input grammar
`HH[:MM[:SS[.fff[fff]]]][±HH:MM[:SS[.ffffff]]]`: two-digit wall-clock
fields separated by `:`, an optional 3- or 6-digit fraction, an optional
timezone offset, with range checks `HH < 24`, `MM < 60`, `SS < 60` (and
the same on the offset fields).  Returns the wall-clock components paired
with whether an offset was present (an offset makes the Python result an
aware `time`; the components themselves carry no tzinfo in this model);
`none` models a raised `ValueError`. -/
def time_fromisoformat_core (s : String) : Option (PyTime × Bool) :=
  match parse2 s.data with
  | none => none
  | some (hh, rest) =>
    if 24 ≤ hh then none else
    match rest with
    | ':' :: rest2 =>
      match parse2 rest2 with
      | none => none
      | some (mm, rest3) =>
        if 60 ≤ mm then none else
        match rest3 with
        | ':' :: rest4 =>
          match parse2 rest4 with
          | none => none
          | some (ss, rest5) =>
            if 60 ≤ ss then none else
            match rest5 with
            | '.' :: tail =>
              let frac := tail.takeWhile Char.isDigit
              let rest6 := tail.dropWhile Char.isDigit
              if frac.length = 3 then
                match parse_offset rest6 with
                | some tz => some (⟨hh, mm, ss, 1000 * digitsVal frac⟩, tz)
                | none => none
              else if frac.length = 6 then
                match parse_offset rest6 with
                | some tz => some (⟨hh, mm, ss, digitsVal frac⟩, tz)
                | none => none
              else none
            | _ =>
              match parse_offset rest5 with
              | some tz => some (⟨hh, mm, ss, 0⟩, tz)
              | none => none
        | _ =>
          match parse_offset rest3 with
          | some tz => some (⟨hh, mm, 0, 0⟩, tz)
          | none => none
    | _ =>
      match parse_offset rest with
      | some tz => some (⟨hh, 0, 0, 0⟩, tz)
      | none => none

/-- The parse result of `time.fromisoformat` as a wall-clock time:
`some` exactly when Python returns normally, `none` when it raises
`ValueError`.  This is the acceptance test the add command performs at
`src/main.py` line 120. -/
def time_fromisoformat (s : String) : Option PyTime :=
  (time_fromisoformat_core s).map Prod.fst

/-- Whether a successfully parsed isoformat string carries a timezone
offset — in Python, whether `time.fromisoformat` returns an aware time. -/
def iso_has_offset (s : String) : Bool :=
  match time_fromisoformat_core s with
  | some (_, b) => b
  | none => false

/-- One element of `self.scheduled_messages`: the JSON dict created at
`src/main.py` lines 127-134.  `enabled` is `Option Bool` because a dict
loaded from disk may lack the key; every read in the source uses
`msg.get('enabled', True)`. -/
structure Entry where
  id : String
  group_id : String
  time : String
  message : String
  enabled : Option Bool
  created_at : String
deriving DecidableEq, Repr

/-- Effective enabled flag: Python `msg.get('enabled', True)`. -/
def Entry.effEnabled (e : Entry) : Bool := e.enabled.getD true

/-- The plugin object's mutable state plus its environment:
`scheduled_messages` and `tasks` are the instance attributes; `alive`
records every asyncio task created and not yet cancelled, as a pair
(entry id, token); `nextToken` supplies fresh task tokens; `doc` is the
content of `timed_messages.json` (`none` = file absent); `saveCount`
counts calls to `save_config`. -/
structure PluginState where
  scheduled_messages : List Entry
  tasks : List (String × Nat)
  alive : List (String × Nat)
  nextToken : Nat
  doc : Option (List Entry)
  saveCount : Nat
deriving DecidableEq, Repr

/-- Fresh plugin state (`__init__`, lines 12-16) over an absent config file. -/
def init_state : PluginState :=
  { scheduled_messages := [], tasks := [], alive := [], nextToken := 0,
    doc := none, saveCount := 0 }

/-- Dict lookup `self.tasks[k]` / membership `k in self.tasks`. -/
def lookupTask : List (String × Nat) → String → Option Nat
  | [], _ => none
  | p :: rest, k => if p.1 = k then some p.2 else lookupTask rest k

/-- Dict assignment `self.tasks[k] = v`. -/
def updateTask : List (String × Nat) → String → Nat → List (String × Nat)
  | [], k, v => [(k, v)]
  | p :: rest, k, v => if p.1 = k then (k, v) :: rest else p :: updateTask rest k v

/-- Dict deletion `del self.tasks[k]`. -/
def removeTask : List (String × Nat) → String → List (String × Nat)
  | [], _ => []
  | p :: rest, k => if p.1 = k then removeTask rest k else p :: removeTask rest k

/-- `save_config` (lines 38-44): dump `scheduled_messages` to the config
file; an I/O failure (`saveOk = false`) is caught and logged, leaving the
file as it was.  Either way the call returns and `saveCount` records it. -/
def save_config (saveOk : Bool) (st : PluginState) : PluginState :=
  if saveOk then
    { st with doc := some st.scheduled_messages, saveCount := st.saveCount + 1 }
  else
    { st with saveCount := st.saveCount + 1 }

/-- `load_config` (lines 24-36): if the config file exists, parse it
(`readOk = false` models a raised exception: log and fall back to `[]`);
if it does not exist, set the list to `[]` and call `save_config`. -/
def load_config (readOk saveOk : Bool) (st : PluginState) : PluginState :=
  match st.doc with
  | some entries =>
    if readOk then { st with scheduled_messages := entries }
    else { st with scheduled_messages := [] }
  | none => save_config saveOk { st with scheduled_messages := [] }

/-- `start_single_task` (lines 52-59): if a task is registered for the id,
cancel it (it leaves `alive`); then register a freshly created task under
the id.  The old dict entry is overwritten, not deleted. -/
def start_single_task (st : PluginState) (cfg : Entry) : PluginState :=
  let tid := cfg.id
  let alive1 :=
    match lookupTask st.tasks tid with
    | some tok => st.alive.filter (fun p => !(p.1 == tid && p.2 == tok))
    | none => st.alive
  { st with tasks := updateTask st.tasks tid st.nextToken,
            alive := alive1 ++ [(tid, st.nextToken)],
            nextToken := st.nextToken + 1 }

/-- The `if msg_id in self.tasks: cancel; del self.tasks[msg_id]` pattern
shared by `delete_timed_message` (lines 182-184) and the disable branch of
`toggle_timed_message` (lines 225-227). -/
def cancel_task (st : PluginState) (tid : String) : PluginState :=
  match lookupTask st.tasks tid with
  | some tok =>
    { st with alive := st.alive.filter (fun p => !(p.1 == tid && p.2 == tok)),
              tasks := removeTask st.tasks tid }
  | none => st

/-- The entry dict built by `add_timed_message` (lines 126-134); the id is
`f"msg_{len(self.scheduled_messages) + 1}_{int(datetime.now().timestamp())}"`. -/
def mk_new_entry (st : PluginState) (group_id time_str message : String)
    (nowTs : Nat) (createdAt : String) : Entry :=
  { id := "msg_" ++ toString (st.scheduled_messages.length + 1) ++ "_" ++ toString nowTs,
    group_id := group_id, time := time_str, message := message,
    enabled := some true, created_at := createdAt }

/-- `add_timed_message` (lines 102-144) after argument splitting: validate
`time_str` with `time.fromisoformat` (on `ValueError` reply with the
format-error message and change nothing); otherwise build the entry,
append it, save, and start its task.  Returns the new state and either
the created entry or the error message. -/
def add_timed_message (st : PluginState) (group_id time_str message : String)
    (nowTs : Nat) (createdAt : String) (saveOk : Bool) :
    PluginState × Except String Entry :=
  match time_fromisoformat time_str with
  | none => (st, Except.error "时间格式错误，请使用 HH:MM 格式，如 09:00")
  | some _ =>
    let cfg := mk_new_entry st group_id time_str message nowTs createdAt
    let st1 := { st with scheduled_messages := st.scheduled_messages ++ [cfg] }
    let st2 := save_config saveOk st1
    (start_single_task st2 cfg, Except.ok cfg)

/-- The `for i, msg in enumerate(...): if msg['id'] == msg_id: del ...; break`
loop of `delete_timed_message` (lines 179-190): remove the first entry with
the given id, or `none` when no entry matches. -/
def delete_first : List Entry → String → Option (List Entry)
  | [], _ => none
  | e :: rest, tid =>
    if e.id = tid then some rest
    else (delete_first rest tid).map (fun rest1 => e :: rest1)

/-- `delete_timed_message` (lines 164-199) after argument splitting: find
the entry; if absent reply not-found and change nothing (no save); if
present cancel its task, remove it from the list, and save.  The Bool
reports whether the id was found. -/
def delete_timed_message (st : PluginState) (msg_id : String) (saveOk : Bool) :
    PluginState × Bool :=
  match delete_first st.scheduled_messages msg_id with
  | none => (st, false)
  | some msgs1 =>
    let st1 := cancel_task st msg_id
    (save_config saveOk { st1 with scheduled_messages := msgs1 }, true)

/-- The `for msg in ...: if msg['id'] == msg_id: msg['enabled'] = not
msg.get('enabled', True); break` loop of `toggle_timed_message` (lines
216-230): flip the first matching entry in place, returning the updated
list and the updated entry. -/
def toggle_first : List Entry → String → Option (List Entry × Entry)
  | [], _ => none
  | e :: rest, tid =>
    if e.id = tid then
      let e1 := { e with enabled := some (!(e.enabled.getD true)) }
      some (e1 :: rest, e1)
    else
      match toggle_first rest tid with
      | some (rest1, e1) => some (e :: rest1, e1)
      | none => none

/-- `toggle_timed_message` (lines 201-237) after argument splitting: find
the entry (absent: reply not-found, change nothing); flip `enabled`, save,
then start its task if now enabled or cancel it if now disabled.  Returns
the new state and `some newEnabled`, or `none` when not found. -/
def toggle_timed_message (st : PluginState) (msg_id : String) (saveOk : Bool) :
    PluginState × Option Bool :=
  match toggle_first st.scheduled_messages msg_id with
  | none => (st, none)
  | some (msgs1, e1) =>
    let st1 := save_config saveOk { st with scheduled_messages := msgs1 }
    if e1.effEnabled then (start_single_task st1 e1, some true)
    else (cancel_task st1 msg_id, some false)

/-- Python `len` on a string: number of code points. -/
def py_len (s : String) : Nat := s.data.length

/-- Python `s[:n]`: the first `n` code points. -/
def py_take (s : String) (n : Nat) : String := ⟨s.data.take n⟩

/-- The message cell rendered by `list_timed_messages` (line 159):
`msg['message'][:50]` followed by `'...' if len(msg['message']) > 50 else ''`. -/
def render_message (s : String) : String :=
  py_take s 50 ++ (if 50 < py_len s then "..." else "")

/-- One numbered block of the `list_timed_msg` reply (lines 154-160). -/
def render_entry (i : Nat) (e : Entry) : String :=
  toString i ++ ". ID: " ++ e.id ++ "\n   群号: " ++ e.group_id ++
    "\n   时间: " ++ e.time ++ "\n   消息: " ++ render_message e.message ++
    "\n   状态: " ++ (if e.effEnabled then "启用" else "禁用") ++ "\n\n"

/-- `list_timed_messages` (lines 146-162): a read-only command; returns the
state unchanged together with the rendered blocks in order. -/
def list_timed_messages (st : PluginState) : PluginState × List String :=
  (st, (st.scheduled_messages.enumFrom 1).map (fun p => render_entry p.1 p.2))

/-- `send_timed_message` (lines 87-100): the whole body — including the
delivery call, which in the source is a placeholder for the AstrBot send
API — sits inside `try/except Exception`, so any delivery outcome
(modelled from the spec: `deliver : Except String Unit`, the Delivery
Collaborator's success or `DeliveryError`) is absorbed and logged; the
call itself always returns normally. -/
def send_timed_message (deliver : Except String Unit) : Except String Unit :=
  match deliver with
  | Except.ok _ => Except.ok ()
  | Except.error _ => Except.ok ()

/-- Outcome of the `await asyncio.sleep(wait_seconds)` at line 77. -/
inductive SleepOutcome
  | completed
  | cancelled
deriving DecidableEq, Repr

/-- Result of one pass through the `while True` body of
`timed_message_loop` (lines 61-85). -/
inductive LoopStep
  | fired (next_run : PyDateTime)
  | cancelledStop
  | failedStop (e : String)
deriving DecidableEq, Repr

/-- One iteration of `timed_message_loop` (lines 61-85): parse the stored
time (a `ValueError` escapes to the outer `except Exception`, ending the
loop; so does the `TypeError` the naive-vs-aware comparison at line 71
raises when the stored time carries a timezone offset); compute
`next_run`; sleep until it (a `CancelledError` ends the loop); then
`send_timed_message` — whose result is always normal — and continue.
`fired next_run` means this pass fired at `next_run` and the loop
proceeds to the next pass. -/
def timed_message_loop_iter (cfg : Entry) (now : PyDateTime)
    (sleep : SleepOutcome) (deliver : Except String Unit) : LoopStep :=
  match time_fromisoformat_core cfg.time with
  | none => LoopStep.failedStop "Invalid isoformat string"
  | some (_, true) => LoopStep.failedStop "cannot compare offset-naive and offset-aware times"
  | some (target, false) =>
    let next_run := compute_next_run now target
    match sleep with
    | SleepOutcome.cancelled => LoopStep.cancelledStop
    | SleepOutcome.completed =>
      match send_timed_message deliver with
      | Except.ok _ => LoopStep.fired next_run
      | Except.error e => LoopStep.failedStop e

/-- The command alphabet for scheduler-state sequences: the spec's
`startTimer` / `stopTimer` plus the three mutating command handlers. -/
inductive Cmd
  | startTimer (cfg : Entry)
  | stopTimer (tid : String)
  | addMsg (gid tstr msg : String) (ts : Nat) (ca : String) (ok : Bool)
  | toggleMsg (tid : String) (ok : Bool)
  | deleteMsg (tid : String) (ok : Bool)

/-- Apply one command to the plugin state. -/
def apply_cmd (st : PluginState) : Cmd → PluginState
  | Cmd.startTimer cfg => start_single_task st cfg
  | Cmd.stopTimer tid => cancel_task st tid
  | Cmd.addMsg g t m ts ca ok => (add_timed_message st g t m ts ca ok).1
  | Cmd.toggleMsg tid ok => (toggle_timed_message st tid ok).1
  | Cmd.deleteMsg tid ok => (delete_timed_message st tid ok).1

/-- Run a command sequence from a state. -/
def run_cmds (st : PluginState) (cs : List Cmd) : PluginState :=
  cs.foldl apply_cmd st

/-- Task-bookkeeping invariant: every live task is the one currently
registered for its id, live tokens are below the fresh counter, and live
tokens are pairwise distinct. -/
def TasksInv (st : PluginState) : Prop :=
  (∀ p ∈ st.alive, lookupTask st.tasks p.1 = some p.2) ∧
  (∀ p ∈ st.alive, p.2 < st.nextToken) ∧
  (st.alive.map Prod.snd).Nodup

/-- `true` exactly on the success constructor of `Except`. -/
def except_is_ok {α β : Type} : Except α β → Bool
  | Except.ok _ => true
  | Except.error _ => false

/-- A string is unchanged by taking at least its length. -/
theorem py_take_of_len_le (s : String) (n : Nat) (h : py_len s ≤ n) :
    py_take s n = s := by
  apply String.ext
  exact List.take_of_length_le h

/-- Looking for an id none of the entries carry finds nothing. -/
theorem delete_first_eq_none (l : List Entry) (tid : String)
    (h : ∀ e ∈ l, e.id ≠ tid) : delete_first l tid = none := by
  induction l with
  | nil => rfl
  | cons e rest ih =>
    have he : e.id ≠ tid := h e (by simp)
    simp [delete_first, he, ih (fun x hx => h x (by simp [hx]))]

/-- C1: for every current instant `now` and fire time `target`, if `now`'s
time of day is strictly earlier than `target`, the next-fire computation of
the timer loop returns today's date combined with `target`. -/
theorem C1_next_fire_today (now : PyDateTime) (target : PyTime)
    (h : now.tod.toMicros < target.toMicros) :
    compute_next_run now target = { day := now.day, tod := target } := by
  unfold compute_next_run
  rw [if_neg (by omega)]

/-- C1 witness: the spec's example, `now = 2024-01-01T08:00` (day 0 here),
`fireTime = 09:00`, yields today at 09:00. -/
theorem C1_next_fire_today_witness :
    compute_next_run ⟨0, ⟨8, 0, 0, 0⟩⟩ ⟨9, 0, 0, 0⟩ = ⟨0, ⟨9, 0, 0, 0⟩⟩ :=
  C1_next_fire_today ⟨0, ⟨8, 0, 0, 0⟩⟩ ⟨9, 0, 0, 0⟩ (by decide)

/-- C2: if `now`'s time of day is greater than or equal to `target`
(including exact equality), the next-fire computation returns tomorrow's
date combined with `target` — an exact match fires tomorrow, not now. -/
theorem C2_next_fire_tomorrow (now : PyDateTime) (target : PyTime)
    (h : target.toMicros ≤ now.tod.toMicros) :
    compute_next_run now target = { day := now.day + 1, tod := target } := by
  unfold compute_next_run
  rw [if_pos h]

/-- C2 witness: the spec's exact-match example, `now = 2024-01-01T09:00`,
`fireTime = 09:00`, yields tomorrow at 09:00. -/
theorem C2_next_fire_tomorrow_witness :
    compute_next_run ⟨0, ⟨9, 0, 0, 0⟩⟩ ⟨9, 0, 0, 0⟩ = ⟨1, ⟨9, 0, 0, 0⟩⟩ :=
  C2_next_fire_tomorrow ⟨0, ⟨9, 0, 0, 0⟩⟩ ⟨9, 0, 0, 0⟩ (by decide)

/-- C4: a delivery failure is caught inside `send_timed_message` (the call
always returns normally), so a loop pass whose sleep completed continues to
the next day's fire for every delivery outcome — delivery never terminates
the timer loop.  The fire time is hypothesised to parse as a naive
(offset-free) time, which is exactly the set of entries whose loop can
reach a fire at all: a `ValueError` or the aware-comparison `TypeError`
already ends the loop before any delivery. -/
theorem C4_delivery_failure_does_not_stop_loop (cfg : Entry) (now : PyDateTime)
    (deliver : Except String Unit) (target : PyTime)
    (h : time_fromisoformat cfg.time = some target)
    (hn : iso_has_offset cfg.time = false) :
    send_timed_message deliver = Except.ok () ∧
    timed_message_loop_iter cfg now SleepOutcome.completed deliver =
      LoopStep.fired (compute_next_run now target) := by
  refine ⟨by cases deliver <;> rfl, ?_⟩
  cases hc : time_fromisoformat_core cfg.time with
  | none =>
    rw [time_fromisoformat, hc] at h
    exact Option.noConfusion h
  | some pb =>
    obtain ⟨t0, b⟩ := pb
    rw [time_fromisoformat, hc] at h
    rw [iso_has_offset, hc] at hn
    simp only [Option.map_some'] at h
    have ht0 : t0 = target := Option.some.inj h
    subst ht0
    subst hn
    unfold timed_message_loop_iter
    rw [hc]
    cases deliver <;> rfl

/-- C4 witness: a concrete entry at 09:00 whose delivery raises still
yields a `fired` step that schedules the next day. -/
theorem C4_delivery_failure_does_not_stop_loop_witness :
    send_timed_message (Except.error "boom") = Except.ok () ∧
    timed_message_loop_iter ⟨"a", "g", "09:00", "m", some true, "t"⟩
        ⟨0, ⟨9, 30, 0, 0⟩⟩ SleepOutcome.completed (Except.error "boom") =
      LoopStep.fired (compute_next_run ⟨0, ⟨9, 30, 0, 0⟩⟩ ⟨9, 0, 0, 0⟩) :=
  C4_delivery_failure_does_not_stop_loop ⟨"a", "g", "09:00", "m", some true, "t"⟩
    ⟨0, ⟨9, 30, 0, 0⟩⟩ (Except.error "boom") ⟨9, 0, 0, 0⟩ (by decide) (by decide)

/-- C8: deleting an id no stored entry carries replies not-found and
returns the state completely unchanged — same entry list, same task
mapping, same persisted document, and the same `saveCount`, so no save
was performed. -/
theorem C8_delete_not_found (st : PluginState) (msg_id : String) (saveOk : Bool)
    (h : ∀ e ∈ st.scheduled_messages, e.id ≠ msg_id) :
    delete_timed_message st msg_id saveOk = (st, false) := by
  unfold delete_timed_message
  rw [delete_first_eq_none st.scheduled_messages msg_id h]

/-- C8 witness: deleting id `"b"` from a store holding only id `"a"`. -/
theorem C8_delete_not_found_witness :
    delete_timed_message
      { scheduled_messages := [⟨"a", "g", "09:00", "m", some true, "t"⟩],
        tasks := [("a", 0)], alive := [("a", 0)], nextToken := 1,
        doc := some [⟨"a", "g", "09:00", "m", some true, "t"⟩], saveCount := 1 }
      "b" true =
    ({ scheduled_messages := [⟨"a", "g", "09:00", "m", some true, "t"⟩],
       tasks := [("a", 0)], alive := [("a", 0)], nextToken := 1,
       doc := some [⟨"a", "g", "09:00", "m", some true, "t"⟩], saveCount := 1 },
     false) :=
  C8_delete_not_found _ "b" true (by decide)

/-- C9: the list command renders a payload longer than 50 characters as its
first 50 characters followed by `...`, renders a payload of at most 50
characters in full, and leaves the state — hence every stored payload —
unchanged. -/
theorem C9_list_truncates_render_only (s : String) (st : PluginState) :
    (50 < py_len s → render_message s = py_take s 50 ++ "...") ∧
    (py_len s ≤ 50 → render_message s = s) ∧
    (list_timed_messages st).1 = st := by
  refine ⟨fun h => ?_, fun h => ?_, rfl⟩
  · unfold render_message
    rw [if_pos h]
  · unfold render_message
    rw [if_neg (by omega), py_take_of_len_le s 50 h]
    simp

/-- C9 witness: a 51-character payload is cut to 50 characters plus `...`;
a short payload is rendered verbatim; listing leaves the state unchanged. -/
theorem C9_list_truncates_render_only_witness :
    render_message "abcdefghijabcdefghijabcdefghijabcdefghijabcdefghijX" =
      py_take "abcdefghijabcdefghijabcdefghijabcdefghijabcdefghijX" 50 ++ "..." ∧
    render_message "short" = "short" ∧
    (list_timed_messages init_state).1 = init_state :=
  ⟨(C9_list_truncates_render_only
      "abcdefghijabcdefghijabcdefghijabcdefghijabcdefghijX" init_state).1
      (by decide),
   (C9_list_truncates_render_only "short" init_state).2.1 (by decide),
   (C9_list_truncates_render_only "short" init_state).2.2⟩

/-- C10: when no persisted document exists, `load_config` sets the entry
list to empty and writes a new empty document to disk (one save is
performed), so a persisted empty document exists after the first load. -/
theorem C10_load_creates_empty_doc (st : PluginState) (readOk : Bool)
    (h : st.doc = none) :
    (load_config readOk true st).scheduled_messages = [] ∧
    (load_config readOk true st).doc = some [] ∧
    (load_config readOk true st).saveCount = st.saveCount + 1 := by
  unfold load_config
  rw [h]
  simp [save_config]

/-- C10 witness: loading over an absent file from the fresh state. -/
theorem C10_load_creates_empty_doc_witness :
    (load_config true true init_state).scheduled_messages = [] ∧
    (load_config true true init_state).doc = some [] ∧
    (load_config true true init_state).saveCount = init_state.saveCount + 1 :=
  C10_load_creates_empty_doc init_state true (by decide)

/-- C6 counterexample: `add` at timestamp 100, `add` at 100, delete of the
first entry, then `add` at 100 again yields two stored entries that both
carry the id `"msg_2_100"`; the final `add` succeeds rather than failing
with any duplicate-id error. -/
theorem C6_unique_ids_counterexample :
    ((add_timed_message
        (delete_timed_message
          (add_timed_message
            (add_timed_message init_state "g" "09:00" "m" 100 "t" true).1
            "g" "09:00" "m" 100 "t" true).1
          "msg_1_100" true).1
        "g" "09:00" "m" 100 "t" true).1.scheduled_messages.map Entry.id) =
      ["msg_2_100", "msg_2_100"] ∧
    ¬ ((add_timed_message
        (delete_timed_message
          (add_timed_message
            (add_timed_message init_state "g" "09:00" "m" 100 "t" true).1
            "g" "09:00" "m" 100 "t" true).1
          "msg_1_100" true).1
        "g" "09:00" "m" 100 "t" true).1.scheduled_messages.map Entry.id).Nodup ∧
    except_is_ok
      (add_timed_message
        (delete_timed_message
          (add_timed_message
            (add_timed_message init_state "g" "09:00" "m" 100 "t" true).1
            "g" "09:00" "m" 100 "t" true).1
          "msg_1_100" true).1
        "g" "09:00" "m" 100 "t" true).2 = true := by
  decide

/-- C6 (amended): the add operation performs no duplicate-id check at all:
whenever `timeStr` parses, it succeeds and appends the generated entry
unconditionally — even when the generated id `msg_{len+1}_{timestamp}` is
already present in the store — so stored ids are not guaranteed unique. -/
theorem C6_add_no_duplicate_guard (st : PluginState) (gid tstr msg : String)
    (ts : Nat) (ca : String) (ok : Bool)
    (h : (time_fromisoformat tstr).isSome) :
    (add_timed_message st gid tstr msg ts ca ok).2 =
      Except.ok (mk_new_entry st gid tstr msg ts ca) ∧
    (add_timed_message st gid tstr msg ts ca ok).1.scheduled_messages =
      st.scheduled_messages ++ [mk_new_entry st gid tstr msg ts ca] := by
  obtain ⟨t, ht⟩ := Option.isSome_iff_exists.mp h
  unfold add_timed_message
  rw [ht]
  refine ⟨rfl, ?_⟩
  cases ok <;> simp [save_config, start_single_task]

/-- C6 witness: a concrete successful append from the fresh state. -/
theorem C6_add_no_duplicate_guard_witness :
    (add_timed_message init_state "g" "09:00" "m" 100 "t" true).2 =
      Except.ok (mk_new_entry init_state "g" "09:00" "m" 100 "t") ∧
    (add_timed_message init_state "g" "09:00" "m" 100 "t" true).1.scheduled_messages =
      init_state.scheduled_messages ++ [mk_new_entry init_state "g" "09:00" "m" 100 "t"] :=
  C6_add_no_duplicate_guard init_state "g" "09:00" "m" 100 "t" true (by decide)

/-- Registering a token for a key makes lookup of that key find it. -/
theorem lookupTask_updateTask_self (m : List (String × Nat)) (k : String) (v : Nat) :
    lookupTask (updateTask m k v) k = some v := by
  induction m with
  | nil => simp [updateTask, lookupTask]
  | cons p rest ih =>
    by_cases hp : p.1 = k
    · simp [updateTask, hp, lookupTask]
    · simp [updateTask, hp, lookupTask, ih]

/-- Registering a token for a key leaves other keys' lookups alone. -/
theorem lookupTask_updateTask_ne (m : List (String × Nat)) (k k' : String) (v : Nat)
    (h : k' ≠ k) : lookupTask (updateTask m k v) k' = lookupTask m k' := by
  induction m with
  | nil => simp [updateTask, lookupTask, Ne.symm h]
  | cons p rest ih =>
    by_cases hp : p.1 = k
    · have hpk : p.1 ≠ k' := by rw [hp]; exact Ne.symm h
      simp [updateTask, hp, lookupTask, Ne.symm h, hpk]
    · simp [updateTask, hp, lookupTask, ih]

/-- After deleting a key from the task dict, looking it up finds nothing. -/
theorem lookupTask_removeTask_self (m : List (String × Nat)) (k : String) :
    lookupTask (removeTask m k) k = none := by
  induction m with
  | nil => rfl
  | cons p rest ih =>
    by_cases hp : p.1 = k
    · simp [removeTask, hp, ih]
    · simp [removeTask, hp, lookupTask, ih]

/-- Deleting one key from the task dict leaves other keys' lookups alone. -/
theorem lookupTask_removeTask_ne (m : List (String × Nat)) (k k' : String)
    (h : k' ≠ k) : lookupTask (removeTask m k) k' = lookupTask m k' := by
  induction m with
  | nil => rfl
  | cons p rest ih =>
    by_cases hp : p.1 = k
    · have hpk : ¬ p.1 = k' := fun hh => h (hh ▸ hp)
      simp only [removeTask, lookupTask, if_pos hp, if_neg hpk]
      exact ih
    · by_cases hpk : p.1 = k'
      · simp only [removeTask, lookupTask, if_neg hp, if_pos hpk]
      · simp only [removeTask, lookupTask, if_neg hp, if_neg hpk]
        exact ih

/-- The first-match toggle traversal on a list whose prefix misses the id
flips exactly the marked entry. -/
theorem toggle_first_spec (pre post : List Entry) (e : Entry) (tid : String)
    (hpre : ∀ x ∈ pre, x.id ≠ tid) (he : e.id = tid) :
    toggle_first (pre ++ e :: post) tid =
      some (pre ++ { e with enabled := some (!(e.enabled.getD true)) } :: post,
            { e with enabled := some (!(e.enabled.getD true)) }) := by
  induction pre with
  | nil => simp [toggle_first, he]
  | cons x xs ih =>
    have hx : x.id ≠ tid := hpre x (by simp)
    simp [toggle_first, hx, ih (fun y hy => hpre y (by simp [hy]))]

/-- Writing back an entry's own enabled value is the identity. -/
theorem entry_set_enabled_eq_self (e : Entry) (b : Bool) (h : e.enabled = some b) :
    ({ e with enabled := some b } : Entry) = e := by
  cases e
  simp_all

/-- Cancelling a task never touches the message list. -/
theorem cancel_task_messages (st : PluginState) (tid : String) :
    (cancel_task st tid).scheduled_messages = st.scheduled_messages := by
  unfold cancel_task
  cases lookupTask st.tasks tid <;> rfl

/-- Cancelling a task never touches the persisted document. -/
theorem cancel_task_doc (st : PluginState) (tid : String) :
    (cancel_task st tid).doc = st.doc := by
  unfold cancel_task
  cases lookupTask st.tasks tid <;> rfl

/-- Starting a task never touches the message list. -/
theorem start_single_task_messages (st : PluginState) (cfg : Entry) :
    (start_single_task st cfg).scheduled_messages = st.scheduled_messages := rfl

/-- Starting a task never touches the persisted document. -/
theorem start_single_task_doc (st : PluginState) (cfg : Entry) :
    (start_single_task st cfg).doc = st.doc := rfl

/-- Characterisation of one toggle call on a state whose message list
splits as `pre ++ e :: post` with the target id first matched by `e`. -/
theorem toggle_timed_message_eq (st : PluginState) (pre post : List Entry)
    (e : Entry) (tid : String)
    (hmsgs : st.scheduled_messages = pre ++ e :: post)
    (hpre : ∀ x ∈ pre, x.id ≠ tid) (he : e.id = tid) :
    toggle_timed_message st tid true =
      (let e1 : Entry := { e with enabled := some (!(e.enabled.getD true)) }
       let st1 := save_config true { st with scheduled_messages := pre ++ e1 :: post }
       if e1.effEnabled then (start_single_task st1 e1, some true)
       else (cancel_task st1 tid, some false)) := by
  unfold toggle_timed_message
  rw [hmsgs, toggle_first_spec pre post e tid hpre he]

/-- C7 counterexample: for an existing entry whose stored record lacks the
`enabled` key (effectively enabled), toggling twice does NOT restore the
persisted document to its original content — the record gains an explicit
`enabled: true` field, so the document differs. -/
theorem C7_toggle_twice_counterexample :
    (toggle_timed_message
      (toggle_timed_message
        { scheduled_messages := [⟨"a", "g", "09:00", "m", none, "t"⟩],
          tasks := [], alive := [], nextToken := 0,
          doc := some [⟨"a", "g", "09:00", "m", none, "t"⟩], saveCount := 0 }
        "a" true).1
      "a" true).1.doc ≠
    some [⟨"a", "g", "09:00", "m", none, "t"⟩] := by
  decide

/-- C7 (amended): for an existing entry whose stored record carries an
explicit `enabled` value, toggling twice restores the entry list and the
persisted document to their original content; and when that entry is
disabled with no registered or live task, the first toggle reports enabled,
registers a live timer for the id, and the second toggle reports disabled
and cancels it, leaving no task for the id.  (For a record missing the
`enabled` key the effective state still round-trips but the persisted
record gains an explicit field — see the counterexample.) -/
theorem C7_toggle_twice_roundtrip (st : PluginState) (pre post : List Entry)
    (e : Entry) (b : Bool)
    (hmsgs : st.scheduled_messages = pre ++ e :: post)
    (hpre : ∀ x ∈ pre, x.id ≠ e.id)
    (hb : e.enabled = some b)
    (hdoc : st.doc = some st.scheduled_messages) :
    ((toggle_timed_message (toggle_timed_message st e.id true).1 e.id true).1.scheduled_messages
        = st.scheduled_messages ∧
     (toggle_timed_message (toggle_timed_message st e.id true).1 e.id true).1.doc = st.doc) ∧
    (b = false → lookupTask st.tasks e.id = none → (∀ p ∈ st.alive, p.1 ≠ e.id) →
      (toggle_timed_message st e.id true).2 = some true ∧
      lookupTask (toggle_timed_message st e.id true).1.tasks e.id = some st.nextToken ∧
      (e.id, st.nextToken) ∈ (toggle_timed_message st e.id true).1.alive ∧
      (toggle_timed_message (toggle_timed_message st e.id true).1 e.id true).2 = some false ∧
      lookupTask (toggle_timed_message (toggle_timed_message st e.id true).1 e.id true).1.tasks
        e.id = none ∧
      (∀ p ∈ (toggle_timed_message (toggle_timed_message st e.id true).1 e.id true).1.alive,
        p.1 ≠ e.id)) := by
  have hT1 := toggle_timed_message_eq st pre post e e.id hmsgs hpre rfl
  rw [hb] at hT1
  cases b with
  | true =>
    refine ⟨?_, fun hbf => by cases hbf⟩
    simp only [Option.getD_some, Bool.not_true, Entry.effEnabled, Bool.false_eq_true,
      if_false] at hT1
    have hm1 : (toggle_timed_message st e.id true).1.scheduled_messages =
        pre ++ ({ e with enabled := some false } : Entry) :: post := by
      rw [hT1, cancel_task_messages]
      simp [save_config]
    have hT2 := toggle_timed_message_eq (toggle_timed_message st e.id true).1 pre post
      ({ e with enabled := some false } : Entry) e.id hm1 hpre rfl
    simp only [Option.getD_some, Bool.not_false, Entry.effEnabled, eq_self_iff_true,
      if_true] at hT2
    rw [entry_set_enabled_eq_self e true hb] at hT2
    constructor
    · rw [hT2, start_single_task_messages]
      simp [save_config, hmsgs]
    · rw [hT2, start_single_task_doc]
      simp [save_config, hdoc, hmsgs]
  | false =>
    simp only [Option.getD_some, Bool.not_false, Entry.effEnabled, eq_self_iff_true,
      if_true] at hT1
    have hm1 : (toggle_timed_message st e.id true).1.scheduled_messages =
        pre ++ ({ e with enabled := some true } : Entry) :: post := by
      rw [hT1, start_single_task_messages]
      simp [save_config]
    have hT2 := toggle_timed_message_eq (toggle_timed_message st e.id true).1 pre post
      ({ e with enabled := some true } : Entry) e.id hm1 hpre rfl
    simp only [Option.getD_some, Bool.not_true, Entry.effEnabled, Bool.false_eq_true,
      if_false] at hT2
    rw [entry_set_enabled_eq_self e false hb] at hT2
    refine ⟨⟨?_, ?_⟩, fun _ htask halive => ?_⟩
    · rw [hT2, cancel_task_messages]
      simp [save_config, hmsgs]
    · rw [hT2, cancel_task_doc]
      simp [save_config, hdoc, hmsgs]
    · have htasks1 : (toggle_timed_message st e.id true).1.tasks =
          updateTask st.tasks e.id st.nextToken := by
        rw [hT1]
        simp [start_single_task, save_config]
      have halive1 : (toggle_timed_message st e.id true).1.alive =
          st.alive ++ [(e.id, st.nextToken)] := by
        rw [hT1]
        simp [start_single_task, save_config, htask]
      have hst2t : (save_config true { (toggle_timed_message st e.id true).1 with
          scheduled_messages := pre ++ e :: post }).tasks =
          updateTask st.tasks e.id st.nextToken := by
        simp [save_config, htasks1]
      have hst2a : (save_config true { (toggle_timed_message st e.id true).1 with
          scheduled_messages := pre ++ e :: post }).alive =
          st.alive ++ [(e.id, st.nextToken)] := by
        simp [save_config, halive1]
      have hcl : lookupTask (save_config true { (toggle_timed_message st e.id true).1 with
          scheduled_messages := pre ++ e :: post }).tasks e.id = some st.nextToken := by
        rw [hst2t]
        exact lookupTask_updateTask_self st.tasks e.id st.nextToken
      have hc2 : cancel_task (save_config true { (toggle_timed_message st e.id true).1 with
            scheduled_messages := pre ++ e :: post }) e.id =
          { (save_config true { (toggle_timed_message st e.id true).1 with
              scheduled_messages := pre ++ e :: post }) with
            alive := (save_config true { (toggle_timed_message st e.id true).1 with
              scheduled_messages := pre ++ e :: post }).alive.filter
                (fun p => !(p.1 == e.id && p.2 == st.nextToken)),
            tasks := removeTask (save_config true { (toggle_timed_message st e.id true).1 with
              scheduled_messages := pre ++ e :: post }).tasks e.id } := by
        unfold cancel_task
        rw [hcl]
      refine ⟨?_, ?_, ?_, ?_, ?_, ?_⟩
      · rw [hT1]
      · rw [htasks1]
        exact lookupTask_updateTask_self st.tasks e.id st.nextToken
      · rw [halive1]
        simp
      · rw [hT2]
      · rw [hT2, hc2]
        simp only
        rw [hst2t, lookupTask_removeTask_self]
      · rw [hT2, hc2]
        simp only
        rw [hst2a]
        intro p hp
        simp only [List.mem_filter, List.mem_append, List.mem_singleton] at hp
        obtain ⟨hmem, hpred⟩ := hp
        rcases hmem with hmem | hmem
        · exact halive p hmem
        · subst hmem
          simp at hpred

/-- C7 witness: a one-entry store holding a disabled entry with an explicit
flag: toggling twice restores the list and document, the first toggle
starts a timer and the second cancels it. -/
theorem C7_toggle_twice_roundtrip_witness :
    ((toggle_timed_message (toggle_timed_message
        { scheduled_messages := [⟨"a", "g", "09:00", "m", some false, "t"⟩],
          tasks := [], alive := [], nextToken := 0,
          doc := some [⟨"a", "g", "09:00", "m", some false, "t"⟩], saveCount := 0 }
        "a" true).1 "a" true).1.scheduled_messages =
      [⟨"a", "g", "09:00", "m", some false, "t"⟩] ∧
     (toggle_timed_message (toggle_timed_message
        { scheduled_messages := [⟨"a", "g", "09:00", "m", some false, "t"⟩],
          tasks := [], alive := [], nextToken := 0,
          doc := some [⟨"a", "g", "09:00", "m", some false, "t"⟩], saveCount := 0 }
        "a" true).1 "a" true).1.doc =
      some [⟨"a", "g", "09:00", "m", some false, "t"⟩]) ∧
    (toggle_timed_message
        { scheduled_messages := [⟨"a", "g", "09:00", "m", some false, "t"⟩],
          tasks := [], alive := [], nextToken := 0,
          doc := some [⟨"a", "g", "09:00", "m", some false, "t"⟩], saveCount := 0 }
        "a" true).2 = some true ∧
    (toggle_timed_message (toggle_timed_message
        { scheduled_messages := [⟨"a", "g", "09:00", "m", some false, "t"⟩],
          tasks := [], alive := [], nextToken := 0,
          doc := some [⟨"a", "g", "09:00", "m", some false, "t"⟩], saveCount := 0 }
        "a" true).1 "a" true).2 = some false := by
  have h := C7_toggle_twice_roundtrip
    { scheduled_messages := [⟨"a", "g", "09:00", "m", some false, "t"⟩],
      tasks := [], alive := [], nextToken := 0,
      doc := some [⟨"a", "g", "09:00", "m", some false, "t"⟩], saveCount := 0 }
    [] [] ⟨"a", "g", "09:00", "m", some false, "t"⟩ false
    (by decide) (by decide) (by decide) (by decide)
  have hB := h.2 rfl (by decide) (by decide)
  exact ⟨h.1, hB.1, hB.2.2.2.1⟩

/-- A duplicate-free list whose elements are pairwise equal has at most one
element. -/
theorem length_le_one_of_nodup_of_all_eq {α : Type} (l : List α) (hnd : l.Nodup)
    (hall : ∀ a ∈ l, ∀ b ∈ l, a = b) : l.length ≤ 1 := by
  match l with
  | [] => simp
  | [a] => simp
  | a :: b :: t =>
    exfalso
    have hab : a = b := hall a (by simp) b (by simp)
    have : a ∉ b :: t := (List.nodup_cons.mp hnd).1
    exact this (hab ▸ List.mem_cons_self b t)

/-- Under the task-bookkeeping invariant, at most one live task exists for
any entry id: all live pairs with that id share the registered token, and
live tokens are distinct. -/
theorem TasksInv_countP_le_one (st : PluginState) (h : TasksInv st) (tid : String) :
    st.alive.countP (fun p => p.1 == tid) ≤ 1 := by
  obtain ⟨h1, _, h3⟩ := h
  rw [List.countP_eq_length_filter]
  apply length_le_one_of_nodup_of_all_eq
  · exact (List.Nodup.of_map Prod.snd h3).filter _
  · intro a ha b hb
    have ha1 : a.1 = tid := by
      have := List.of_mem_filter ha
      simpa using this
    have hb1 : b.1 = tid := by
      have := List.of_mem_filter hb
      simpa using this
    have hla := h1 a (List.mem_of_mem_filter ha)
    have hlb := h1 b (List.mem_of_mem_filter hb)
    rw [ha1] at hla
    rw [hb1] at hlb
    have h2 : a.2 = b.2 := by
      rw [hla] at hlb
      exact (Option.some.injEq _ _ ▸ hlb).symm ▸ rfl
    cases a; cases b
    simp_all

/-- The invariant ignores the message list. -/
theorem TasksInv_set_msgs (st : PluginState) (m : List Entry) (h : TasksInv st) :
    TasksInv { st with scheduled_messages := m } := h

/-- Saving the config file leaves the task bookkeeping untouched. -/
theorem TasksInv_save (st : PluginState) (ok : Bool) (h : TasksInv st) :
    TasksInv (save_config ok st) := by
  cases ok <;> exact h

/-- Cancelling a task preserves the invariant: the registered task (if any)
leaves both the live set and the dict. -/
theorem TasksInv_cancel (st : PluginState) (tid : String) (h : TasksInv st) :
    TasksInv (cancel_task st tid) := by
  obtain ⟨h1, h2, h3⟩ := h
  unfold cancel_task
  cases hl : lookupTask st.tasks tid with
  | none => exact ⟨h1, h2, h3⟩
  | some tok =>
    refine ⟨?_, ?_, ?_⟩
    · intro p hp
      have hmem := List.mem_of_mem_filter hp
      have hpred := List.of_mem_filter hp
      have hne : p.1 ≠ tid := by
        intro heq
        have := h1 p hmem
        rw [heq, hl] at this
        have hp2 : p.2 = tok := by
          have h0 : some tok = some p.2 := hl ▸ this
          exact (Option.some.inj h0).symm
        simp [heq, hp2] at hpred
      simp only
      rw [lookupTask_removeTask_ne st.tasks tid p.1 hne]
      exact h1 p hmem
    · intro p hp
      exact h2 p (List.mem_of_mem_filter hp)
    · simp only
      exact List.Nodup.sublist (List.Sublist.map Prod.snd (List.filter_sublist _)) h3

/-- Starting a task preserves the invariant: the previously registered task
for the id is first removed from the live set, and the fresh token is new. -/
theorem TasksInv_start (st : PluginState) (cfg : Entry) (h : TasksInv st) :
    TasksInv (start_single_task st cfg) := by
  obtain ⟨h1, h2, h3⟩ := h
  cases hl : lookupTask st.tasks cfg.id with
  | none =>
    have hs : start_single_task st cfg =
        { st with tasks := updateTask st.tasks cfg.id st.nextToken,
                  alive := st.alive ++ [(cfg.id, st.nextToken)],
                  nextToken := st.nextToken + 1 } := by
      simp only [start_single_task, hl]
    rw [hs]
    refine ⟨?_, ?_, ?_⟩
    · intro p hp
      simp only [List.mem_append, List.mem_singleton] at hp
      rcases hp with hp | hp
      · have hne : p.1 ≠ cfg.id := by
          intro heq
          have := h1 p hp
          rw [heq, hl] at this
          exact Option.noConfusion this
        simp only
        rw [lookupTask_updateTask_ne st.tasks cfg.id p.1 st.nextToken hne]
        exact h1 p hp
      · subst hp
        simp only
        exact lookupTask_updateTask_self st.tasks cfg.id st.nextToken
    · intro p hp
      simp only [List.mem_append, List.mem_singleton] at hp
      rcases hp with hp | hp
      · exact Nat.lt_succ_of_lt (h2 p hp)
      · subst hp
        exact Nat.lt_succ_self _
    · simp only [List.map_append, List.map_cons, List.map_nil]
      rw [List.nodup_append]
      refine ⟨h3, List.nodup_singleton _, ?_⟩
      intro n hn hn1
      simp only [List.mem_singleton] at hn1
      subst hn1
      obtain ⟨p, hp, hp2⟩ := List.mem_map.mp hn
      exact absurd (hp2 ▸ h2 p hp) (Nat.lt_irrefl _)
  | some tok =>
    have hs : start_single_task st cfg =
        { st with tasks := updateTask st.tasks cfg.id st.nextToken,
                  alive := st.alive.filter (fun p => !(p.1 == cfg.id && p.2 == tok)) ++
                    [(cfg.id, st.nextToken)],
                  nextToken := st.nextToken + 1 } := by
      simp only [start_single_task, hl]
    rw [hs]
    refine ⟨?_, ?_, ?_⟩
    · intro p hp
      simp only [List.mem_append, List.mem_singleton] at hp
      rcases hp with hp | hp
      · have hmem := List.mem_of_mem_filter hp
        have hpred := List.of_mem_filter hp
        have hne : p.1 ≠ cfg.id := by
          intro heq
          have := h1 p hmem
          rw [heq, hl] at this
          have hp2 : p.2 = tok := (Option.some.inj this).symm
          simp [heq, hp2] at hpred
        simp only
        rw [lookupTask_updateTask_ne st.tasks cfg.id p.1 st.nextToken hne]
        exact h1 p hmem
      · subst hp
        simp only
        exact lookupTask_updateTask_self st.tasks cfg.id st.nextToken
    · intro p hp
      simp only [List.mem_append, List.mem_singleton] at hp
      rcases hp with hp | hp
      · exact Nat.lt_succ_of_lt (h2 p (List.mem_of_mem_filter hp))
      · subst hp
        exact Nat.lt_succ_self _
    · simp only [List.map_append, List.map_cons, List.map_nil]
      rw [List.nodup_append]
      refine ⟨List.Nodup.sublist (List.Sublist.map Prod.snd (List.filter_sublist _)) h3,
        List.nodup_singleton _, ?_⟩
      intro n hn hn1
      simp only [List.mem_singleton] at hn1
      subst hn1
      obtain ⟨p, hp, hp2⟩ := List.mem_map.mp hn
      exact absurd (hp2 ▸ h2 p (List.mem_of_mem_filter hp)) (Nat.lt_irrefl _)

/-- The fresh plugin state satisfies the invariant. -/
theorem TasksInv_init : TasksInv init_state := by
  refine ⟨?_, ?_, ?_⟩ <;> simp [init_state]

/-- Every command — startTimer, stopTimer, add, toggle, delete — preserves
the task-bookkeeping invariant. -/
theorem TasksInv_apply (st : PluginState) (c : Cmd) (h : TasksInv st) :
    TasksInv (apply_cmd st c) := by
  cases c with
  | startTimer cfg => exact TasksInv_start st cfg h
  | stopTimer tid => exact TasksInv_cancel st tid h
  | addMsg g t m ts ca ok =>
    simp only [apply_cmd, add_timed_message]
    cases ht : time_fromisoformat t with
    | none => exact h
    | some tt => exact TasksInv_start _ _ (TasksInv_save _ ok (TasksInv_set_msgs st _ h))
  | toggleMsg tid ok =>
    simp only [apply_cmd, toggle_timed_message]
    cases ht : toggle_first st.scheduled_messages tid with
    | none => exact h
    | some pr =>
      obtain ⟨msgs1, e1⟩ := pr
      by_cases hen : e1.effEnabled
      · simp only [hen, if_true]
        exact TasksInv_start _ _ (TasksInv_save _ ok (TasksInv_set_msgs st _ h))
      · simp only [hen, if_false]
        exact TasksInv_cancel _ _ (TasksInv_save _ ok (TasksInv_set_msgs st _ h))
  | deleteMsg tid ok =>
    simp only [apply_cmd, delete_timed_message]
    cases ht : delete_first st.scheduled_messages tid with
    | none => exact h
    | some msgs1 =>
      exact TasksInv_save _ ok (TasksInv_set_msgs _ _ (TasksInv_cancel st tid h))

/-- Running any command sequence from an invariant state keeps it. -/
theorem TasksInv_run (cs : List Cmd) (st : PluginState) (h : TasksInv st) :
    TasksInv (run_cmds st cs) := by
  induction cs generalizing st with
  | nil => exact h
  | cons c rest ih => exact ih (apply_cmd st c) (TasksInv_apply st c h)

/-- C3: for every entry id and every sequence of startTimer / stopTimer /
add / toggle / delete operations from the fresh state, at most one live
timer task exists per entry id — starting a timer for an id that already
has one first cancels the existing task. -/
theorem C3_at_most_one_task (cs : List Cmd) (tid : String) :
    (run_cmds init_state cs).alive.countP (fun p => p.1 == tid) ≤ 1 :=
  TasksInv_countP_le_one _ (TasksInv_run cs init_state TasksInv_init) tid
